import Mathlib

/-!
# Verification of the random-quiz broadcast engine

Shallow embedding of the quiz-distribution core of `src/bot.py`
(class `QuizBot` together with its `MongoDB` persistence wrapper):
catalog selection with anti-repeat tracking (`get_random_quiz`,
`track_recent_quiz`), the broadcast pass (`send_random_quiz` /
`send_quiz_to_group`), the manual send path (`send_immediate_quiz`),
quiz reset (`reset_quizzes_command`) and the scheduler loop
(`start_scheduler`).

Modelling conventions:
* timestamps (ISO strings in the source) are modelled as `Nat`;
  string comparison of ISO timestamps is chronological, so `Nat`
  order is faithful;
* Mongo `_id` values of quizzes are `Nat`, Telegram chat ids are `Int`
  (they are negative for groups);
* `random.choice(pool)` is modelled nondeterministically (an arbitrary
  member of `pool`) or, where a function is needed, by indexing the
  pool with a choice parameter modulo its length;
* the in-memory lists `self.quizzes` / `self.groups` and the Mongo
  collections are kept in lockstep by the source (every mutation is
  saved and reloaded), so a single list models both.
-/

namespace QuizBot

/-- A quiz document, as created by `save_poll_quiz` (src/bot.py:430-443).
`lastSent = none` models `'last_sent': None`. -/
structure Quiz where
  id : Nat
  question : String
  options : List String
  correctOptionId : Nat
  isAnonymous : Bool
  isActive : Bool
  sentCount : Nat
  manualSentCount : Nat
  lastSent : Option Nat
  deriving DecidableEq, Repr

instance : Inhabited Quiz :=
  ⟨{ id := 0, question := "", options := [], correctOptionId := 0,
     isAnonymous := false, isActive := true, sentCount := 0,
     manualSentCount := 0, lastSent := none }⟩

/-- A group document, as created by `ensure_group_registered`
(src/bot.py:252-261). -/
structure Group where
  chatId : Int
  title : String
  quizzesReceived : Nat
  manualQuizzesReceived : Nat
  lastActivity : Nat
  isActive : Bool
  deriving DecidableEq, Repr

/-- The stats document `bot_stats` (src/bot.py:152-162); only the fields
touched by the broadcast engine are modelled.  `groupEngagement` is the
dict keyed by `str(chat_id)`, modelled as an association list keyed by
the chat id. -/
structure Stats where
  totalQuizzesSent : Nat
  quizzesAdded : Nat
  lastQuizSent : Option Nat
  groupEngagement : List (Int × Nat)
  totalBroadcastsSent : Nat
  manualQuizzesSent : Nat
  deriving DecidableEq, Repr

/-- The mutable bot state relevant to broadcasting: `self.quizzes`,
`self.groups`, `self.recently_sent_quizzes`, `self.stats`. -/
structure BotState where
  quizzes : List Quiz
  groups : List Group
  recent : List Nat
  stats : Stats
  deriving DecidableEq, Repr

/-- `self.max_recent_track = 10` (src/bot.py:119). -/
def maxRecentTrack : Nat := 10

/-- The trim `self.recently_sent_quizzes = self.recently_sent_quizzes[-self.max_recent_track:]`
guarded by `len(...) > self.max_recent_track` (src/bot.py:212-213 and 243-244). -/
def trimRecent (r : List Nat) : List Nat :=
  if r.length > maxRecentTrack then r.drop (r.length - maxRecentTrack) else r

/-- `QuizBot.track_recent_quiz` (src/bot.py:236-244): move `quiz_id` to the
most recent position, then keep only the last `max_recent_track` entries.
Python's `list.remove` drops the first occurrence, as does `List.erase`. -/
def trackRecent (r : List Nat) (quizId : Nat) : List Nat :=
  let r1 := if quizId ∈ r then r.erase quizId else r
  trimRecent (r1 ++ [quizId])

/-- Sort key `x.get('last_sent', '2000-01-01')` (src/bot.py:224): ISO
timestamps modelled as `Nat`; a never-sent quiz is modelled with key `0`
(on the only path that sorts, every quiz in the list has been sent, so
the `none` case is unreachable in the source). -/
def lastSentKey (q : Quiz) : Nat := q.lastSent.getD 0

/-- Comparison used to model Python's stable `sorted(..., key=...)`. -/
def lastSentLe (a b : Quiz) : Bool := lastSentKey a ≤ lastSentKey b

/-- Stable insertion into a sorted list: the new element goes after all
elements with a smaller-or-equal key, matching Python's stable sort. -/
def insertLe (le : Quiz → Quiz → Bool) (q : Quiz) : List Quiz → List Quiz
  | [] => [q]
  | x :: xs => if le x q then x :: insertLe le q xs else q :: x :: xs

/-- Stable sort modelling `sorted(active_quizzes, key=...)` (src/bot.py:222-225). -/
def sortByKey (le : Quiz → Quiz → Bool) (l : List Quiz) : List Quiz :=
  l.foldl (fun acc x => insertLe le x acc) []

/-- `QuizBot.get_random_quiz` (src/bot.py:193-234), up to the final
`random.choice`: returns the pool the choice is drawn from (`none` when
the function returns `None`) together with the value of
`self.recently_sent_quizzes` after the call (the function trims it in
place on the main path).  Note that the `excludeRecentCount` parameter
(`exclude_recent_count=8` in the source) is never read in the body. -/
def getRandomQuiz (quizzes : List Quiz) (recent : List Nat)
    (excludeRecentCount : Nat) : Option (List Quiz) × List Nat :=
  if quizzes.isEmpty then (none, recent)
  else
    let active := quizzes.filter (fun q => q.isActive)
    if active.isEmpty then (none, recent)
    else if active.length ≤ 3 then (some active, recent)
    else
      let recent1 := trimRecent recent
      let avail := active.filter (fun q => !(recent1.contains q.id))
      let avail1 := if avail.isEmpty then sortByKey lastSentLe active else avail
      if avail1.isEmpty then (some active, recent1) else (some avail1, recent1)

/-- Update of the selected quiz in `send_random_quiz` (src/bot.py:484-486):
`sent_count += 1`, `last_sent = now`, saved back. -/
def recordSend (quizzes : List Quiz) (quizId now : Nat) : List Quiz :=
  quizzes.map (fun q =>
    if q.id = quizId then
      { q with sentCount := q.sentCount + 1, lastSent := some now }
    else q)

/-- Update of the selected quiz in `send_immediate_quiz` (src/bot.py:603-605):
`manual_sent_count += 1`, `last_sent = now`. -/
def recordManualSend (quizzes : List Quiz) (quizId now : Nat) : List Quiz :=
  quizzes.map (fun q =>
    if q.id = quizId then
      { q with manualSentCount := q.manualSentCount + 1, lastSent := some now }
    else q)

/-- The ids of the active quizzes, in catalog order. -/
def activeIds (quizzes : List Quiz) : List Nat :=
  (quizzes.filter (fun q => q.isActive)).map (fun q => q.id)

/-- In the source a group dict is mutated in place and saved; chat ids are
unique in the registry, so this is modelled by rewriting the entry with
the matching chat id. -/
def updateGroup (groups : List Group) (chatId : Int) (f : Group → Group) :
    List Group :=
  groups.map (fun g => if g.chatId = chatId then f g else g)

/-- Lookup of a group by chat id (`find_one('groups', {'chat_id': ...})`). -/
def findGroup (groups : List Group) (chatId : Int) : Option Group :=
  groups.find? (fun g => g.chatId = chatId)

/-- The engagement update in `send_quiz_to_group` (src/bot.py:544-546):
initialise the key to 0 when absent, then add 1. -/
def bumpEngagement (e : List (Int × Nat)) (chatId : Int) : List (Int × Nat) :=
  if (e.lookup chatId).isSome then
    e.map (fun p => if p.1 = chatId then (p.1, p.2 + 1) else p)
  else e ++ [(chatId, 1)]

/-- Group update on a successful `send_quiz_to_group` (src/bot.py:538-541):
`quizzes_received += 1`, `last_activity = now`. -/
def succUpdate (now : Nat) (g : Group) : Group :=
  { g with quizzesReceived := g.quizzesReceived + 1, lastActivity := now }

/-- Group update when the send raises (src/bot.py:507-511):
`is_active = False`. -/
def markInactive (g : Group) : Group := { g with isActive := false }

/-- The result of one broadcast pass, as summarised by the final log line
`Sent quiz ... to {sent_to}/{len(active_groups)} groups`
(src/bot.py:517): `sentCount` is `sent_to`, `failedCount` the number of
destinations whose send raised. -/
structure BroadcastResult where
  sentCount : Nat
  failedCount : Nat
  deriving DecidableEq, Repr

/-- The destination loop of `send_random_quiz` (src/bot.py:501-511):
iterate over the pre-computed `active_groups`; on success update the
group counters and engagement (`send_quiz_to_group`) and count the send;
on failure (`ok g.chatId = false`, the external `send_poll` raising)
mark the group inactive and continue. -/
def passLoop (ok : Int → Bool) (now : Nat) :
    List Group → List Group → Stats → Nat → List Group × Stats × Nat
  | [], groups, stats, sent => (groups, stats, sent)
  | g :: rest, groups, stats, sent =>
    if ok g.chatId then
      passLoop ok now rest (updateGroup groups g.chatId (succUpdate now))
        { stats with groupEngagement := bumpEngagement stats.groupEngagement g.chatId }
        (sent + 1)
    else
      passLoop ok now rest (updateGroup groups g.chatId markInactive) stats sent

/-- `QuizBot.send_random_quiz` (src/bot.py:470-518), the broadcast pass.
`choice` resolves the `random.choice` over the selection pool; `ok`
tells for each chat id whether the external `send_poll` succeeds or
raises; `now` is the current timestamp.  Returns the state after the
pass together with the pass result. -/
def sendRandomQuiz (st : BotState) (choice : Nat) (ok : Int → Bool)
    (now : Nat) : BotState × BroadcastResult :=
  if st.quizzes.isEmpty || st.groups.isEmpty then (st, ⟨0, 0⟩)
  else
    let sel := getRandomQuiz st.quizzes st.recent 8
    match sel.1 with
    | none => ({ st with recent := sel.2 }, ⟨0, 0⟩)
    | some pool =>
      let quiz := pool.getD (choice % pool.length) default
      let quizzes1 := recordSend st.quizzes quiz.id now
      let recent1 := trackRecent sel.2 quiz.id
      let stats1 := { st.stats with
        totalQuizzesSent := st.stats.totalQuizzesSent + st.groups.length,
        lastQuizSent := some now }
      let activeGroups := st.groups.filter (fun g => g.isActive)
      let out := passLoop ok now activeGroups st.groups stats1 0
      ({ quizzes := quizzes1, groups := out.1, recent := recent1,
         stats := out.2.1 },
       ⟨out.2.2, activeGroups.length - out.2.2⟩)

/-- `QuizBot.reset_quizzes_command` after `/reset confirm`
(src/bot.py:647-657): delete every quiz, clear the recent tracking,
zero `quizzes_added` and save the stats. -/
def resetAllQuizzes (st : BotState) : BotState :=
  { st with
      quizzes := [], recent := [],
      stats := { st.stats with quizzesAdded := 0 } }

/-- Telegram chat types relevant to `/rquiz` (src/bot.py:555). -/
inductive ChatKind
  | privateChat
  | group
  | supergroup
  | channel
  deriving DecidableEq, Repr

/-- Outcome of `send_immediate_quiz`, identified by the reply sent (or,
for `sent`, the silent success path). -/
inductive ManualResult
  | notGroup
  | notAdmin
  | noActiveQuizzes
  | sent
  | sendFailed
  deriving DecidableEq, Repr

/-- `QuizBot.ensure_group_registered` (src/bot.py:246-266): idempotent
registration; returns the (possibly new) group. -/
def ensureGroupRegistered (st : BotState) (chatId : Int) (title : String)
    (now : Nat) : BotState × Group :=
  match findGroup st.groups chatId with
  | some g => (st, g)
  | none =>
    let g : Group :=
      { chatId := chatId, title := title,
        quizzesReceived := 0, manualQuizzesReceived := 0,
        lastActivity := now, isActive := true }
    ({ st with groups := st.groups ++ [g] }, g)

/-- `QuizBot.send_immediate_quiz` (src/bot.py:548-627), the `/rquiz`
manual send.  `chatIsAdmin` is the external `get_chat_member` check
(`false` also covers the case where that call raises); `okSend` tells
whether the external `send_poll` succeeds.  On a send failure the
counter updates made before the send are kept (they precede the send
inside the `try` block). -/
def sendImmediateQuiz (st : BotState) (kind : ChatKind)
    (userId adminUserId : Nat) (chatIsAdmin : Bool) (chatId : Int)
    (title : String) (choice : Nat) (okSend : Bool) (now : Nat) :
    BotState × ManualResult :=
  if !(kind = ChatKind.group ∨ kind = ChatKind.supergroup : Bool) then
    (st, ManualResult.notGroup)
  else
    let isAdmin := userId = adminUserId ∨ chatIsAdmin = true
    if !(isAdmin : Bool) then (st, ManualResult.notAdmin)
    else
      let active := st.quizzes.filter (fun q => q.isActive)
      if active.isEmpty then (st, ManualResult.noActiveQuizzes)
      else
        let reg := ensureGroupRegistered st chatId title now
        let st1 := reg.1
        let g := reg.2
        let st2 :=
          if !g.isActive then
            { st1 with
                groups := updateGroup st1.groups chatId
                  (fun x => { x with isActive := true }) }
          else st1
        let sel := getRandomQuiz st2.quizzes st2.recent 5
        let pool := sel.1.getD []
        let quiz := pool.getD (choice % pool.length) default
        let quizzes1 := recordManualSend st2.quizzes quiz.id now
        let recent1 := trackRecent sel.2 quiz.id
        let groups1 := updateGroup st2.groups chatId (fun x =>
          { x with manualQuizzesReceived := x.manualQuizzesReceived + 1,
                   lastActivity := now })
        let stats1 := { st2.stats with
          manualQuizzesSent := st2.stats.manualQuizzesSent + 1 }
        if okSend then
          let stats2 := { stats1 with
            groupEngagement := bumpEngagement stats1.groupEngagement chatId }
          ({ quizzes := quizzes1,
             groups := updateGroup groups1 chatId (succUpdate now),
             recent := recent1, stats := stats2 },
           ManualResult.sent)
        else
          ({ quizzes := quizzes1, groups := groups1, recent := recent1,
             stats := stats1 }, ManualResult.sendFailed)

/-- The `MongoDB` wrapper (src/bot.py:28-105).  A connected backend is a
mapping from collection names to document lists; after a connection
failure `connect` leaves `db = None`.  Documents are opaque (`Nat`). -/
structure MongoDB where
  db : Option (List (String × List Nat))
  deriving DecidableEq, Repr

/-- The state of the wrapper after `ConnectionFailure` in `connect`
(src/bot.py:43-46): `self.db = None`. -/
def MongoDB.afterConnectFailure : MongoDB := ⟨none⟩

/-- `MongoDB.insert_one` (src/bot.py:58-63): when `db` is `None`,
`get_collection` returns `None` and the method returns `None` without
storing anything. -/
def MongoDB.insertOne (m : MongoDB) (coll : String) (doc : Nat) : MongoDB :=
  match m.db with
  | some b =>
    if (b.lookup coll).isSome then
      ⟨some (b.map (fun p => if p.1 = coll then (p.1, p.2 ++ [doc]) else p))⟩
    else ⟨some (b ++ [(coll, [doc])])⟩
  | none => m

/-- `MongoDB.find` (src/bot.py:65-70) with the empty query: returns `[]`
when `db` is `None`. -/
def MongoDB.findAll (m : MongoDB) (coll : String) : List Nat :=
  match m.db with
  | some b => (b.lookup coll).getD []
  | none => []

/-- `MongoDB.find_one` (src/bot.py:72-77): returns `None` when `db` is
`None`; otherwise the first document of the collection matching the
query (here: the first document, query `{}`). -/
def MongoDB.findOneAny (m : MongoDB) (coll : String) : Option Nat :=
  match m.db with
  | some b => ((b.lookup coll).getD []).head?
  | none => none

/-- `QuizBot.start_scheduler` (src/bot.py:1419-1423): an unguarded
`while True: sleep; await send_random_quiz()`.  `pass i` is the outcome
of the broadcast pass of cycle `i` (`Except.error` when it raises).
`schedulerRun pass n` runs the first `n` cycles: since the loop body has
no exception handler, the first raising pass propagates and no later
cycle fires; otherwise it reports the number of completed cycles. -/
def schedulerRun (pass : Nat → Except String Unit) : Nat → Except String Nat
  | 0 => Except.ok 0
  | n + 1 =>
    match schedulerRun pass n with
    | Except.ok k =>
      match pass n with
      | Except.ok _ => Except.ok (k + 1)
      | Except.error e => Except.error e
    | Except.error e => Except.error e

/-- The last `n` entries of a list (`l[-n:]` in Python). -/
def lastN (n : Nat) (l : List Nat) : List Nat := l.drop (l.length - n)

/-! ## Concrete sample states used to evaluate the model -/

/-- A quiz with id `i`, active, last sent at `ts` (`none` = never). -/
def sampleQuiz (i : Nat) (ts : Option Nat) : Quiz :=
  { id := i, question := "q", options := ["a", "b"], correctOptionId := 0,
    isAnonymous := false, isActive := true, sentCount := 0,
    manualSentCount := 0, lastSent := ts }

/-- An inactive copy of `sampleQuiz`. -/
def sampleInactiveQuiz (i : Nat) : Quiz :=
  { sampleQuiz i none with isActive := false }

/-- An active group with chat id `c` and zeroed counters. -/
def sampleGroup (c : Int) : Group :=
  { chatId := c, title := "g", quizzesReceived := 0,
    manualQuizzesReceived := 0, lastActivity := 0, isActive := true }

/-- An inactive group with chat id `c`. -/
def sampleInactiveGroup (c : Int) : Group :=
  { sampleGroup c with isActive := false }

/-- Zeroed stats document. -/
def sampleStats : Stats :=
  { totalQuizzesSent := 0, quizzesAdded := 0, lastQuizSent := none,
    groupEngagement := [], totalBroadcastsSent := 0,
    manualQuizzesSent := 0 }

/-- Eleven active quizzes with distinct ids 0..10 (C1 example). -/
def elevenCatalog : List Quiz := (List.range 11).map (fun i => sampleQuiz i none)

/-- Four active quizzes, all inside the tracked window, with distinct
`last_sent` times (C5 example). -/
def staleCatalog : List Quiz :=
  [sampleQuiz 1 (some 10), sampleQuiz 2 (some 40),
   sampleQuiz 3 (some 20), sampleQuiz 4 (some 30)]

/-- Eleven active quizzes with ids 1..11 (C7 example). -/
def windowCatalog : List Quiz :=
  (List.range 11).map (fun i => sampleQuiz (i + 1) (some (i + 1)))

/-- Five active destinations with chat ids 1..5 and one active quiz
(C2 example). -/
def fiveGroupState : BotState :=
  { quizzes := [sampleQuiz 7 none],
    groups := [sampleGroup 1, sampleGroup 2, sampleGroup 3,
               sampleGroup 4, sampleGroup 5],
    recent := [], stats := sampleStats }

/-- One active quiz and a single registered but inactive destination
(C3 counterexample). -/
def inactiveOnlyState : BotState :=
  { quizzes := [sampleQuiz 7 none], groups := [sampleInactiveGroup (-100)],
    recent := [], stats := sampleStats }

/-- One active quiz, one active and one inactive destination
(C6 counterexample). -/
def mixedGroupState : BotState :=
  { quizzes := [sampleQuiz 7 none],
    groups := [sampleGroup 1, sampleInactiveGroup (-100)],
    recent := [], stats := sampleStats }

/-- States reached along the C1 witness trace. -/
def elevenCatalog1 : List Quiz := recordSend elevenCatalog 0 100

/-- Tracker after the first C1 witness selection. -/
def elevenRecent1 : List Nat :=
  trackRecent (getRandomQuiz elevenCatalog [] 8).2 0

/-- One selection step of the broadcast engine, as performed by
`send_random_quiz` (src/bot.py:477-489): `get_random_quiz` yields a
pool, `random.choice` picks any member `q` of it, the selected quiz is
recorded (`sent_count`, `last_sent`) and tracked.
`BroadcastTrace qs r sel` holds when `sel` is a possible sequence of
selected quiz ids for consecutive `send_random_quiz` passes starting
from catalog `qs` and recent-tracker `r`. -/
inductive BroadcastTrace : List Quiz → List Nat → List Nat → Prop
  | nil (qs : List Quiz) (r : List Nat) : BroadcastTrace qs r []
  | step (qs : List Quiz) (r : List Nat) (pool : List Quiz) (q : Quiz)
      (now : Nat) (rest : List Nat)
      (hpool : (getRandomQuiz qs r 8).1 = some pool)
      (hq : q ∈ pool)
      (hrest : BroadcastTrace (recordSend qs q.id now)
        (trackRecent (getRandomQuiz qs r 8).2 q.id) rest) :
      BroadcastTrace qs r (q.id :: rest)

section Lemmas

/-- `trimRecent` is exactly "keep the last `maxRecentTrack` entries". -/
theorem trimRecent_eq_lastN (r : List Nat) :
    trimRecent r = lastN maxRecentTrack r := by
  unfold trimRecent lastN
  split
  · rfl
  · rename_i h
    rw [Nat.sub_eq_zero_of_le (Nat.le_of_not_lt h), List.drop_zero]

theorem length_lastN_le (n : Nat) (l : List Nat) : (lastN n l).length ≤ n := by
  simp only [lastN, List.length_drop]
  omega

theorem lastN_of_length_le {n : Nat} {l : List Nat} (h : l.length ≤ n) :
    lastN n l = l := by
  simp [lastN, Nat.sub_eq_zero_of_le h]

theorem length_trimRecent_le (r : List Nat) :
    (trimRecent r).length ≤ maxRecentTrack := by
  rw [trimRecent_eq_lastN]; exact length_lastN_le _ _

/-- Re-trimming before appending does not change the last `n` entries. -/
theorem lastN_append_lastN (n : Nat) (a b : List Nat) :
    lastN n (lastN n a ++ b) = lastN n (a ++ b) := by
  by_cases h : a.length ≤ n
  · rw [lastN_of_length_le h]
  · have hn : n ≤ a.length := Nat.le_of_lt (Nat.lt_of_not_le h)
    have hA : (a.drop (a.length - n)).length = n := by
      simp only [List.length_drop]; omega
    simp only [lastN, List.length_append, hA, List.length_drop]
    rw [List.drop_append_eq_append_drop, List.drop_append_eq_append_drop,
      List.drop_drop]
    congr 2 <;> omega

/-- An element whose distance from the end of the list is at most `n`
belongs to the last `n` entries. -/
theorem mem_lastN {l : List Nat} {i n : Nat} (hi : i < l.length)
    (hn : l.length ≤ i + n) : l.get ⟨i, hi⟩ ∈ lastN n l := by
  refine List.mem_iff_getElem.mpr ⟨i - (l.length - n), ?_, ?_⟩
  · simp only [lastN, List.length_drop]; omega
  · simp only [lastN]
    rw [List.getElem_drop]
    simp only [List.get_eq_getElem]
    congr 1
    omega

/-- `track_recent_quiz` on an id not currently tracked: append and keep
the last `maxRecentTrack` entries. -/
theorem trackRecent_not_mem {r : List Nat} {id : Nat} (h : id ∉ r) :
    trackRecent r id = lastN maxRecentTrack (r ++ [id]) := by
  unfold trackRecent
  rw [if_neg h, trimRecent_eq_lastN]

theorem trimRecent_of_le {r : List Nat} (h : r.length ≤ maxRecentTrack) :
    trimRecent r = r := by
  unfold trimRecent
  rw [if_neg (by omega)]

theorem mem_insertLe {le : Quiz → Quiz → Bool} {q x : Quiz} {l : List Quiz} :
    x ∈ insertLe le q l ↔ x = q ∨ x ∈ l := by
  induction l with
  | nil => simp [insertLe]
  | cons a l ih =>
    simp only [insertLe]
    split
    · simp only [List.mem_cons, ih]
      tauto
    · simp [List.mem_cons]

theorem mem_foldl_insertLe {le : Quiz → Quiz → Bool} {x : Quiz} :
    ∀ (l acc : List Quiz),
      (x ∈ l.foldl (fun acc y => insertLe le y acc) acc ↔ x ∈ acc ∨ x ∈ l)
  | [], acc => by simp
  | a :: l, acc => by
    simp only [List.foldl_cons]
    rw [mem_foldl_insertLe l]
    simp only [mem_insertLe, List.mem_cons]
    tauto

theorem mem_sortByKey {le : Quiz → Quiz → Bool} {x : Quiz} {l : List Quiz} :
    x ∈ sortByKey le l ↔ x ∈ l := by
  unfold sortByKey
  rw [mem_foldl_insertLe]
  simp

theorem length_insertLe (le : Quiz → Quiz → Bool) (q : Quiz) (l : List Quiz) :
    (insertLe le q l).length = l.length + 1 := by
  induction l with
  | nil => rfl
  | cons a l ih =>
    simp only [insertLe]
    split
    · simp [ih]
    · simp

theorem length_foldl_insertLe (le : Quiz → Quiz → Bool) :
    ∀ (l acc : List Quiz),
      (l.foldl (fun acc y => insertLe le y acc) acc).length =
        acc.length + l.length
  | [], acc => rfl
  | a :: l, acc => by
    simp only [List.foldl_cons]
    rw [length_foldl_insertLe le l]
    rw [length_insertLe]
    simp only [List.length_cons]
    omega

theorem length_sortByKey (le : Quiz → Quiz → Bool) (l : List Quiz) :
    (sortByKey le l).length = l.length := by
  unfold sortByKey
  rw [length_foldl_insertLe]
  simp

/-- Case analysis on the pool `get_random_quiz` hands to `random.choice`:
it is the whole active list, the not-recently-sent sublist, or the
active list sorted by `last_sent`; it is never empty. -/
theorem getRandomQuiz_pool_cases {qs : List Quiz} {r : List Nat}
    {n : Nat} {pool : List Quiz}
    (h : (getRandomQuiz qs r n).1 = some pool) :
    pool ≠ [] ∧
      (pool = qs.filter (fun q => q.isActive) ∨
       pool = (qs.filter (fun q => q.isActive)).filter
          (fun q => !((trimRecent r).contains q.id)) ∨
       pool = sortByKey lastSentLe (qs.filter (fun q => q.isActive))) := by
  simp only [getRandomQuiz] at h
  split at h
  · simp at h
  split at h
  · simp at h
  rename_i h0 h1
  have h1' : qs.filter (fun q => q.isActive) ≠ [] := by
    simpa using h1
  split at h
  · rw [Option.some_inj] at h
    exact ⟨h ▸ h1', Or.inl h.symm⟩
  split at h
  · -- all active quizzes recently sent: the pool is the sorted actives
    split at h
    · rename_i hsort
      rw [List.isEmpty_iff] at hsort
      have := length_sortByKey lastSentLe (qs.filter (fun q => q.isActive))
      rw [hsort] at this
      exact absurd this.symm (by simpa using h1')
    · rename_i hsort
      rw [Option.some_inj] at h
      exact ⟨h ▸ (by simpa using hsort), Or.inr (Or.inr h.symm)⟩
  · rename_i hloop
    rw [Option.some_inj] at h
    exact ⟨h ▸ (by simpa using hloop), Or.inr (Or.inl h.symm)⟩

/-- Every pool `get_random_quiz` can hand to `random.choice` is a subset
of the active quizzes. -/
theorem getRandomQuiz_pool_subset {qs : List Quiz} {r : List Nat}
    {n : Nat} {pool : List Quiz}
    (h : (getRandomQuiz qs r n).1 = some pool) :
    pool ⊆ qs.filter (fun q => q.isActive) := by
  rcases (getRandomQuiz_pool_cases h).2 with hp | hp | hp
  · exact hp ▸ fun x hx => hx
  · exact hp ▸ fun x hx => (List.mem_filter.mp hx).1
  · exact hp ▸ fun x hx => mem_sortByKey.mp hx

/-- The pool is never returned empty. -/
theorem getRandomQuiz_pool_ne_nil {qs : List Quiz} {r : List Nat}
    {n : Nat} {pool : List Quiz}
    (h : (getRandomQuiz qs r n).1 = some pool) : pool ≠ [] :=
  (getRandomQuiz_pool_cases h).1

/-- `get_random_quiz` returns `None` exactly when there is no active
quiz. -/
theorem getRandomQuiz_none_iff (qs : List Quiz) (r : List Nat) (n : Nat) :
    (getRandomQuiz qs r n).1 = none ↔
      qs.filter (fun q => q.isActive) = [] := by
  constructor
  · intro h
    by_contra hne
    rcases ho : (getRandomQuiz qs r n).1 with _ | pool
    · simp only [getRandomQuiz] at ho
      split at ho
      · rename_i h0
        rw [List.isEmpty_iff] at h0
        exact hne (by simp [h0])
      split at ho
      · rename_i h1
        exact hne (List.isEmpty_iff.mp h1)
      split at ho
      · simp at ho
      split at ho
      · split at ho <;> simp at ho
      · simp at ho
    · rw [ho] at h
      simp at h
  · intro h
    by_cases h0 : qs.isEmpty
    · simp [getRandomQuiz, h0]
    · simp only [getRandomQuiz]
      rw [if_neg h0, if_pos (by simp [h, List.isEmpty_iff])]

theorem length_activeIds (qs : List Quiz) :
    (activeIds qs).length = (qs.filter (fun q => q.isActive)).length := by
  simp [activeIds]

/-- With at least 11 distinct active quiz ids the selection never reaches
the fallback: the pool is exactly the active quizzes outside the tracked
window, the tracker is trimmed, and every pool member is fresh. -/
theorem getRandomQuiz_big {qs : List Quiz} {r : List Nat} (n : Nat)
    (hnd : (activeIds qs).Nodup) (hlen : 11 ≤ (activeIds qs).length) :
    (getRandomQuiz qs r n).2 = trimRecent r ∧
    (getRandomQuiz qs r n).1 =
      some ((qs.filter (fun q => q.isActive)).filter
        (fun q => !((trimRecent r).contains q.id))) ∧
    ∀ q ∈ (qs.filter (fun q => q.isActive)).filter
        (fun q => !((trimRecent r).contains q.id)),
      q.id ∉ trimRecent r := by
  have hlen' : 3 < (qs.filter (fun q => q.isActive)).length := by
    rw [← length_activeIds]; omega
  have h0 : qs.isEmpty = false := by
    cases qs with
    | nil => simp at hlen'
    | cons a l => rfl
  have h1 : (qs.filter (fun q => q.isActive)).isEmpty = false := by
    rw [List.isEmpty_eq_false]
    intro hnil
    rw [hnil] at hlen'
    simp at hlen'
  have havail : (qs.filter (fun q => q.isActive)).filter
      (fun q => !((trimRecent r).contains q.id)) ≠ [] := by
    intro hnil
    have hall := List.filter_eq_nil_iff.mp hnil
    have hsub : activeIds qs ⊆ trimRecent r := by
      intro x hx
      simp only [activeIds, List.mem_map] at hx
      obtain ⟨q, hqa, rfl⟩ := hx
      have := hall q hqa
      simpa using this
    have hle := (List.subperm_of_subset hnd hsub).length_le
    have h10 := length_trimRecent_le r
    unfold maxRecentTrack at h10
    omega
  have hmem : ∀ q ∈ (qs.filter (fun q => q.isActive)).filter
      (fun q => !((trimRecent r).contains q.id)), q.id ∉ trimRecent r := by
    intro q hq
    have := (List.mem_filter.mp hq).2
    simpa using this
  have hav_f : ((qs.filter (fun q => q.isActive)).filter
      (fun q => !((trimRecent r).contains q.id))).isEmpty = false := by
    simpa using havail
  have hcomp : getRandomQuiz qs r n =
      (some ((qs.filter (fun q => q.isActive)).filter
        (fun q => !((trimRecent r).contains q.id))), trimRecent r) := by
    unfold getRandomQuiz
    rw [if_neg (by simp [h0])]
    rw [if_neg (by simp [h1]),
      if_neg (by omega : ¬ (qs.filter (fun q => q.isActive)).length ≤ 3)]
    simp only [hav_f, Bool.false_eq_true, if_false]
  rw [hcomp]
  exact ⟨rfl, rfl, hmem⟩

theorem activeIds_recordSend (qs : List Quiz) (quizId now : Nat) :
    activeIds (recordSend qs quizId now) = activeIds qs := by
  unfold activeIds recordSend
  induction qs with
  | nil => rfl
  | cons a l ih =>
    simp only [List.map_cons, List.filter_cons]
    by_cases hid : a.id = quizId <;> by_cases hact : a.isActive <;>
      simp [hid, hact, ih]

/-- Key invariant behind the anti-repeat guarantee: along any sequence of
broadcast selections starting with ≥ 11 distinct active ids and a tracker
within capacity, each selection differs from everything in the tracker at
that point, and the tracker is exactly the last 10 entries of the initial
tracker followed by the selections so far. -/
theorem broadcast_sel_fresh {qs : List Quiz} {r sel : List Nat}
    (ht : BroadcastTrace qs r sel) :
    (activeIds qs).Nodup → 11 ≤ (activeIds qs).length →
    r.length ≤ maxRecentTrack →
    ∀ (j : Nat) (hj : j < sel.length),
      ∀ x ∈ lastN maxRecentTrack (r ++ sel.take j), sel.get ⟨j, hj⟩ ≠ x := by
  induction ht with
  | nil qs r =>
    intro _ _ _ j hj
    exact absurd hj (by simp)
  | step qs r pool q now rest hpool hq hrest ih =>
    intro hnd hlen hr j hj x hx
    obtain ⟨hsnd, hfst, hfresh⟩ := getRandomQuiz_big (r := r) 8 hnd hlen
    rw [trimRecent_of_le hr] at hsnd hfst hfresh
    rw [hpool] at hfst
    have hpe := Option.some_inj.mp hfst
    have hqfresh : q.id ∉ r := hfresh q (hpe ▸ hq)
    have hr' : trackRecent (getRandomQuiz qs r 8).2 q.id =
        lastN maxRecentTrack (r ++ [q.id]) := by
      rw [hsnd, trackRecent_not_mem hqfresh]
    match j, hj with
    | 0, hj =>
      rw [List.take_zero, List.append_nil, lastN_of_length_le hr] at hx
      simp only [List.get]
      intro hcon
      exact hqfresh (hcon ▸ hx)
    | j' + 1, hj =>
      have hj' : j' < rest.length := by
        simpa using hj
      have ihx := ih (by rw [activeIds_recordSend]; exact hnd)
        (by rw [activeIds_recordSend]; exact hlen)
        (by rw [hr']; exact length_lastN_le _ _) j' hj' x
      simp only [List.get]
      apply ihx
      rw [hr', lastN_append_lastN]
      simpa [List.append_assoc] using hx

theorem passLoop_sent (ok : Int → Bool) (now : Nat) (l : List Group) :
    ∀ (G : List Group) (s : Stats) (k : Nat),
      (passLoop ok now l G s k).2.2 =
        k + (l.filter (fun g => ok g.chatId)).length := by
  induction l with
  | nil => intro G s k; simp [passLoop]
  | cons g l ih =>
    intro G s k
    by_cases h : ok g.chatId
    · simp only [passLoop, h, if_true, List.filter_cons, ih]
      simp [h]
      omega
    · simp only [passLoop, h, List.filter_cons]
      rw [if_neg (by simp [h]), ih]
      simp [h]

/-- The destination loop only touches the engagement map of the stats. -/
theorem passLoop_stats (ok : Int → Bool) (now : Nat) (l : List Group) :
    ∀ (G : List Group) (s : Stats) (k : Nat),
      (passLoop ok now l G s k).2.1.totalQuizzesSent = s.totalQuizzesSent ∧
      (passLoop ok now l G s k).2.1.totalBroadcastsSent =
        s.totalBroadcastsSent ∧
      (passLoop ok now l G s k).2.1.lastQuizSent = s.lastQuizSent ∧
      (passLoop ok now l G s k).2.1.manualQuizzesSent =
        s.manualQuizzesSent := by
  induction l with
  | nil => intro G s k; simp [passLoop]
  | cons g l ih =>
    intro G s k
    by_cases h : ok g.chatId
    · simp only [passLoop, h, if_true]
      exact ih _ _ _
    · simp only [passLoop]
      rw [if_neg (by simp [h])]
      exact ih _ _ _

theorem findGroup_updateGroup_self (G : List Group) (cid : Int)
    (f : Group → Group) (hf : ∀ g, (f g).chatId = g.chatId) :
    findGroup (updateGroup G cid f) cid = (findGroup G cid).map f := by
  induction G with
  | nil => rfl
  | cons a G ih =>
    simp only [updateGroup, findGroup, List.map_cons] at *
    by_cases h : a.chatId = cid
    · rw [if_pos h, List.find?_cons_of_pos _ (by simp [hf, h]),
        List.find?_cons_of_pos _ (by simp [h])]
      rfl
    · rw [if_neg h, List.find?_cons_of_neg _ (by simp [h]),
        List.find?_cons_of_neg _ (by simp [h])]
      exact ih

theorem findGroup_updateGroup_ne (G : List Group) (cid cid' : Int)
    (f : Group → Group) (hf : ∀ g, (f g).chatId = g.chatId)
    (hne : cid' ≠ cid) :
    findGroup (updateGroup G cid f) cid' = findGroup G cid' := by
  induction G with
  | nil => rfl
  | cons a G ih =>
    simp only [updateGroup, findGroup, List.map_cons] at *
    by_cases h : a.chatId = cid
    · rw [if_pos h, List.find?_cons_of_neg _ (by simp [hf, h]; exact fun hc => hne hc.symm),
        List.find?_cons_of_neg _ (by simp [h]; exact fun hc => hne hc.symm)]
      exact ih
    · rw [if_neg h]
      by_cases h2 : a.chatId = cid'
      · rw [List.find?_cons_of_pos _ (by simp [h2]),
          List.find?_cons_of_pos _ (by simp [h2])]
      · rw [List.find?_cons_of_neg _ (by simp [h2]),
          List.find?_cons_of_neg _ (by simp [h2])]
        exact ih

theorem findGroup_of_nodup (G : List Group)
    (hnd : (G.map (fun g => g.chatId)).Nodup) (g : Group) (hg : g ∈ G) :
    findGroup G g.chatId = some g := by
  induction G with
  | nil => cases hg
  | cons a G ih =>
    rcases List.mem_cons.mp hg with rfl | hg'
    · exact List.find?_cons_of_pos _ (by simp)
    · have hne : a.chatId ≠ g.chatId := by
        intro hc
        have : g.chatId ∈ G.map (fun g => g.chatId) :=
          List.mem_map.mpr ⟨g, hg', rfl⟩
        rw [List.map_cons, List.nodup_cons] at hnd
        exact hnd.1 (hc ▸ this)
      rw [findGroup, List.find?_cons_of_neg _ (by simp [hne])]
      exact ih ((List.map_cons _ _ _ ▸ hnd).of_cons) hg'

/-- Destinations not processed by the loop are untouched. -/
theorem passLoop_find_not_mem (ok : Int → Bool) (now : Nat) (l : List Group) :
    ∀ (G : List Group) (s : Stats) (k : Nat) (cid : Int),
      cid ∉ l.map (fun g => g.chatId) →
      findGroup (passLoop ok now l G s k).1 cid = findGroup G cid := by
  induction l with
  | nil => intro G s k cid _; rfl
  | cons g l ih =>
    intro G s k cid hcid
    simp only [List.map_cons, List.mem_cons] at hcid
    push_neg at hcid
    by_cases h : ok g.chatId
    · simp only [passLoop, h, if_true]
      rw [ih _ _ _ _ hcid.2,
        findGroup_updateGroup_ne _ _ _ (succUpdate now) (fun _ => rfl) hcid.1]
    · simp only [passLoop]
      rw [if_neg (by simp [h])]
      rw [ih _ _ _ _ hcid.2,
        findGroup_updateGroup_ne _ _ _ markInactive (fun _ => rfl) hcid.1]

/-- Each processed destination is updated exactly once: incremented
counters and activity stamp on success, deactivation on failure. -/
theorem passLoop_find_mem (ok : Int → Bool) (now : Nat) (l : List Group) :
    ∀ (G : List Group) (s : Stats) (k : Nat) (g : Group),
      g ∈ l → (l.map (fun g => g.chatId)).Nodup →
      findGroup (passLoop ok now l G s k).1 g.chatId =
        (findGroup G g.chatId).map
          (fun x => if ok g.chatId then succUpdate now x else markInactive x) := by
  induction l with
  | nil => intro G s k g hg; cases hg
  | cons a l ih =>
    intro G s k g hg hnd
    rw [List.map_cons, List.nodup_cons] at hnd
    rcases List.mem_cons.mp hg with rfl | hg'
    · have hnot : g.chatId ∉ l.map (fun g => g.chatId) := hnd.1
      by_cases h : ok g.chatId
      · simp only [passLoop, h, if_true]
        rw [passLoop_find_not_mem ok now l _ _ _ _ hnot]
        rw [findGroup_updateGroup_self _ _ (succUpdate now) (fun _ => rfl)]
        try simp [h]
      · simp only [passLoop]
        rw [if_neg (by simp [h])]
        rw [passLoop_find_not_mem ok now l _ _ _ _ hnot]
        rw [findGroup_updateGroup_self _ _ markInactive (fun _ => rfl)]
        try simp [h]
    · have hne : g.chatId ≠ a.chatId := by
        intro hc
        exact hnd.1 (hc ▸ List.mem_map.mpr ⟨g, hg', rfl⟩)
      by_cases h : ok a.chatId
      · simp only [passLoop, h, if_true]
        rw [ih _ _ _ _ hg' hnd.2,
          findGroup_updateGroup_ne _ _ _ (succUpdate now) (fun _ => rfl) hne]
      · simp only [passLoop]
        rw [if_neg (by simp [h])]
        rw [ih _ _ _ _ hg' hnd.2,
          findGroup_updateGroup_ne _ _ _ markInactive (fun _ => rfl) hne]

/-- When `get_random_quiz` returns `None` it has not touched the
tracker (the early returns precede the in-place trim). -/
theorem getRandomQuiz_none_snd {qs : List Quiz} {r : List Nat} {n : Nat}
    (h : (getRandomQuiz qs r n).1 = none) :
    (getRandomQuiz qs r n).2 = r := by
  have hf := (getRandomQuiz_none_iff qs r n).mp h
  by_cases h0 : qs.isEmpty
  · simp [getRandomQuiz, h0]
  · simp only [getRandomQuiz]
    rw [if_neg h0, if_pos (by simp [hf, List.isEmpty_iff])]

/-- `send_random_quiz` is a perfect no-op when the quiz list is empty,
the group list is empty, or no quiz is active. -/
theorem sendRandomQuiz_noop (st : BotState) (choice : Nat)
    (ok : Int → Bool) (now : Nat)
    (h : st.quizzes = [] ∨ st.groups = [] ∨
      st.quizzes.filter (fun q => q.isActive) = []) :
    sendRandomQuiz st choice ok now = (st, ⟨0, 0⟩) := by
  by_cases h0 : st.quizzes.isEmpty
  · simp [sendRandomQuiz, h0]
  · by_cases hg : st.groups.isEmpty
    · simp [sendRandomQuiz, hg]
    · have hf : st.quizzes.filter (fun q => q.isActive) = [] := by
        rcases h with h | h | h
        · exact absurd h (by simpa [List.isEmpty_iff] using h0)
        · exact absurd h (by simpa [List.isEmpty_iff] using hg)
        · exact h
      have hnone : (getRandomQuiz st.quizzes st.recent 8).1 = none :=
        (getRandomQuiz_none_iff _ _ _).mpr hf
      have hsnd := getRandomQuiz_none_snd hnone
      unfold sendRandomQuiz
      rw [if_neg (by simp [h0, hg])]
      simp only [hnone, hsnd]

/-- Reduction of `send_random_quiz` when a quiz is actually selected. -/
theorem sendRandomQuiz_spec (st : BotState) (choice : Nat)
    (ok : Int → Bool) (now : Nat)
    (hne : ¬ (st.quizzes.isEmpty || st.groups.isEmpty) = true)
    {pool : List Quiz}
    (hpool : (getRandomQuiz st.quizzes st.recent 8).1 = some pool) :
    sendRandomQuiz st choice ok now =
      ({ quizzes := recordSend st.quizzes
           (pool.getD (choice % pool.length) default).id now,
         groups := (passLoop ok now
           (st.groups.filter (fun g => g.isActive)) st.groups
           { st.stats with
               totalQuizzesSent :=
                 st.stats.totalQuizzesSent + st.groups.length,
               lastQuizSent := some now } 0).1,
         recent := trackRecent (getRandomQuiz st.quizzes st.recent 8).2
           (pool.getD (choice % pool.length) default).id,
         stats := (passLoop ok now
           (st.groups.filter (fun g => g.isActive)) st.groups
           { st.stats with
               totalQuizzesSent :=
                 st.stats.totalQuizzesSent + st.groups.length,
               lastQuizSent := some now } 0).2.1 },
       ⟨(passLoop ok now (st.groups.filter (fun g => g.isActive)) st.groups
           { st.stats with
               totalQuizzesSent :=
                 st.stats.totalQuizzesSent + st.groups.length,
               lastQuizSent := some now } 0).2.2,
        (st.groups.filter (fun g => g.isActive)).length -
          (passLoop ok now (st.groups.filter (fun g => g.isActive))
            st.groups
            { st.stats with
                totalQuizzesSent :=
                  st.stats.totalQuizzesSent + st.groups.length,
                lastQuizSent := some now } 0).2.2⟩) := by
  unfold sendRandomQuiz
  rw [if_neg hne]
  simp only [hpool]

/-- Chat-id uniqueness is inherited by the active sublist. -/
theorem nodup_chatIds_filter (G : List Group)
    (hnd : (G.map (fun g => g.chatId)).Nodup) (p : Group → Bool) :
    ((G.filter p).map (fun g => g.chatId)).Nodup :=
  hnd.sublist ((List.filter_sublist G).map (fun g => g.chatId))

end Lemmas

section Claims

theorem schedulerRun_all_ok (pass : Nat → Except String Unit) :
    ∀ n : Nat, (∀ j, j < n → pass j = Except.ok ()) →
      schedulerRun pass n = Except.ok n
  | 0, _ => rfl
  | n + 1, h => by
    simp only [schedulerRun,
      schedulerRun_all_ok pass n (fun j hj => h j (by omega)),
      h n (by omega)]

/-- C10: `get_random_quiz` returns `None` exactly when no quiz has its
active flag set (in particular for an empty catalog); otherwise every
quiz it can return — small catalog, recency-excluded candidates, or
least-recently-sent fallback — has `is_active = true`, so an inactive
quiz is never selected. -/
theorem c10_selection_active_only (qs : List Quiz) (r : List Nat)
    (n : Nat) :
    ((getRandomQuiz qs r n).1 = none ↔
      qs.filter (fun q => q.isActive) = []) ∧
    ∀ pool : List Quiz, (getRandomQuiz qs r n).1 = some pool →
      ∀ q ∈ pool, q.isActive = true :=
  ⟨getRandomQuiz_none_iff qs r n,
   fun _pool hp q hq =>
     (List.mem_filter.mp (getRandomQuiz_pool_subset hp hq)).2⟩

/-- Witness for C10: a concrete selected quiz is active. -/
theorem c10_selection_active_only_witness :
    (sampleQuiz 0 none).isActive = true :=
  (c10_selection_active_only elevenCatalog [] 8).2
    ((elevenCatalog.filter (fun q => q.isActive)).filter
      (fun q => !((trimRecent []).contains q.id)))
    (by decide) (sampleQuiz 0 none) (by decide)

/-- C4: contrary to the claim (and to the source's own comment
"Fallback to in-memory storage", src/bot.py:45), when the backing store
is unavailable the wrapper keeps no in-process mapping: `insert_one`
leaves the store unchanged and a subsequent `find` / `find_one` returns
`[]` / `None` instead of the upserted document; with a live backend the
same sequence does return it.  No operation raises — degraded mode
silently loses the data. -/
theorem c4_fallback_drops_writes :
    (MongoDB.afterConnectFailure.insertOne "quizzes" 5).findAll
        "quizzes" = [] ∧
    (MongoDB.afterConnectFailure.insertOne "quizzes" 5).findOneAny
        "quizzes" = none ∧
    MongoDB.afterConnectFailure.insertOne "quizzes" 5 =
      MongoDB.afterConnectFailure ∧
    ((⟨some []⟩ : MongoDB).insertOne "quizzes" 5).findAll "quizzes" =
      [5] :=
  ⟨rfl, rfl, rfl, rfl⟩

/-- C7: the `excludeRecentCount` parameter of `get_random_quiz` is never
read in its body, so the manual-send path (`exclude_recent_count=5`,
src/bot.py:600) excludes the full tracked window exactly like the
scheduled path instead of only the 5 most recent ids: with 11 active
quizzes (ids 1..11) and tracker `[1..10]`, the pool passed with window
argument 5 is `[quiz 11]` alone, although id 1 is not among the 5 most
recently sent and its quiz is active. -/
theorem c7_manual_window_ignored :
    (∀ (qs : List Quiz) (r : List Nat) (a b : Nat),
        getRandomQuiz qs r a = getRandomQuiz qs r b) ∧
    (getRandomQuiz windowCatalog [1, 2, 3, 4, 5, 6, 7, 8, 9, 10] 5).1 =
      some [sampleQuiz 11 (some 11)] ∧
    (1 : Nat) ∉ lastN 5 [1, 2, 3, 4, 5, 6, 7, 8, 9, 10] ∧
    sampleQuiz 1 (some 1) ∈ windowCatalog.filter (fun q => q.isActive) :=
  ⟨fun _ _ _ _ => rfl, by decide, by decide, by decide⟩

/-- C8 counterexample: a broadcast pass that raises on the very first
cycle terminates the scheduler loop with that error — the loop does not
log-and-continue, so the second cycle never completes. -/
theorem c8_counterexample :
    schedulerRun (fun _ => Except.error "boom") 2 =
        Except.error "boom" ∧
    schedulerRun (fun _ => Except.error "boom") 2 ≠ Except.ok 2 :=
  ⟨rfl, fun h => Except.noConfusion h⟩

/-- C8 (amended): `start_scheduler` has no exception handler, so the
first broadcast pass that raises propagates out of the
`while True: sleep; send` loop and terminates it; no later cycle fires.
Only per-destination send failures are caught, inside the pass itself. -/
theorem c8_scheduler_dies (pass : Nat → Except String Unit) (n i : Nat)
    (e : String) (hi : i < n) (herr : pass i = Except.error e)
    (hok : ∀ j, j < i → pass j = Except.ok ()) :
    schedulerRun pass n = Except.error e := by
  induction n with
  | zero => omega
  | succ n ih =>
    by_cases hin : i < n
    · simp only [schedulerRun, ih hin]
    · have hieq : i = n := by omega
      subst hieq
      simp only [schedulerRun, schedulerRun_all_ok pass i hok, herr]

/-- Witness for C8 amended: the loop dies on cycle 1 of 3. -/
theorem c8_scheduler_dies_witness :
    schedulerRun
      (fun k => if k = 1 then Except.error "boom" else Except.ok ()) 3 =
      Except.error "boom" :=
  c8_scheduler_dies _ 3 1 "boom" (by omega) rfl
    (fun j hj => by
      have hj0 : j = 0 := by omega
      subst hj0
      rfl)

/-- C9: `/rquiz` invoked by a caller who is neither the global admin nor
an admin of the chat (`chatIsAdmin = false` also covers the case where
the membership lookup raises) replies with the permission error and
performs no state mutation: quizzes, groups, recency tracker and stats
are all returned unchanged. -/
theorem c9_manual_nonadmin_noop (st : BotState) (kind : ChatKind)
    (userId adminUserId : Nat) (chatId : Int) (title : String)
    (choice : Nat) (okSend : Bool) (now : Nat)
    (hkind : kind = ChatKind.group ∨ kind = ChatKind.supergroup)
    (huser : userId ≠ adminUserId) :
    sendImmediateQuiz st kind userId adminUserId false chatId title
      choice okSend now = (st, ManualResult.notAdmin) := by
  unfold sendImmediateQuiz
  rw [if_neg (by rcases hkind with h | h <;> simp [h])]
  rw [if_pos (by simp [huser])]

/-- Witness for C9 at a concrete state. -/
theorem c9_manual_nonadmin_noop_witness :
    sendImmediateQuiz fiveGroupState ChatKind.group 42 1 false 1 "t" 0
      true 60 = (fiveGroupState, ManualResult.notAdmin) :=
  c9_manual_nonadmin_noop fiveGroupState ChatKind.group 42 1 1 "t" 0
    true 60 (Or.inl rfl) (by omega)

/-- C5 counterexample: with 4 active quizzes all inside the tracked
window, the fallback pool handed to `random.choice` is the WHOLE sorted
active list, not the oldest tied group: the strictly newest quiz (id 2,
last sent 40) is in the pool although quiz 1 (last sent 10) is active
and strictly older, so the selection can return a strictly newer quiz. -/
theorem c5_counterexample :
    3 < (staleCatalog.filter (fun q => q.isActive)).length ∧
    (staleCatalog.filter (fun q => q.isActive)).filter
      (fun q => !((trimRecent [1, 2, 3, 4]).contains q.id)) = [] ∧
    (getRandomQuiz staleCatalog [1, 2, 3, 4] 8).1 =
      some [sampleQuiz 1 (some 10), sampleQuiz 3 (some 20),
            sampleQuiz 4 (some 30), sampleQuiz 2 (some 40)] ∧
    sampleQuiz 2 (some 40) ∈
      ((getRandomQuiz staleCatalog [1, 2, 3, 4] 8).1.getD []) ∧
    lastSentKey (sampleQuiz 1 (some 10)) <
      lastSentKey (sampleQuiz 2 (some 40)) ∧
    sampleQuiz 1 (some 10) ∈
      staleCatalog.filter (fun q => q.isActive) := by
  decide

/-- C5 (amended): when more than 3 quizzes are active and every active
quiz is inside the tracked window, the fallback pool is the active list
sorted ascending by `last_sent` — but `random.choice` then draws
uniformly from this WHOLE sorted list (the sort does not restrict the
draw), so the selection may be strictly newer than another active quiz
(see the counterexample). -/
theorem c5_fallback_pool (qs : List Quiz) (r : List Nat) (n : Nat)
    (h3 : 3 < (qs.filter (fun q => q.isActive)).length)
    (hall : (qs.filter (fun q => q.isActive)).filter
      (fun q => !((trimRecent r).contains q.id)) = []) :
    (getRandomQuiz qs r n).1 =
      some (sortByKey lastSentLe (qs.filter (fun q => q.isActive))) := by
  have h0 : qs.isEmpty = false := by
    cases qs with
    | nil => simp at h3
    | cons a l => rfl
  have h1 : (qs.filter (fun q => q.isActive)).isEmpty = false := by
    rw [List.isEmpty_eq_false]
    intro hnil
    rw [hnil] at h3
    simp at h3
  have hsort : (sortByKey lastSentLe
      (qs.filter (fun q => q.isActive))).isEmpty = false := by
    rw [List.isEmpty_eq_false]
    intro hnil
    have hlen := length_sortByKey lastSentLe
      (qs.filter (fun q => q.isActive))
    rw [hnil] at hlen
    simp only [List.length_nil] at hlen
    omega
  have hav : ((qs.filter (fun q => q.isActive)).filter
      (fun q => !((trimRecent r).contains q.id))).isEmpty = true := by
    rw [hall]
    rfl
  unfold getRandomQuiz
  rw [if_neg (by simp [h0])]
  rw [if_neg (by simp [h1]),
    if_neg (by omega : ¬ (qs.filter (fun q => q.isActive)).length ≤ 3)]
  simp only [hav, eq_self_iff_true, if_true, hsort, Bool.false_eq_true,
    if_false]

/-- Witness for C5 amended at the concrete stale catalog. -/
theorem c5_fallback_pool_witness :
    (getRandomQuiz staleCatalog [1, 2, 3, 4] 8).1 =
      some (sortByKey lastSentLe
        (staleCatalog.filter (fun q => q.isActive))) :=
  c5_fallback_pool staleCatalog [1, 2, 3, 4] 8 (by decide) (by decide)

/-- C3 counterexample: with one active quiz and a registry whose only
destination is Inactive (zero ACTIVE destinations), the pass does not
no-op: the result is (0, 0) but the quiz's sent counter is bumped, its
id is appended to the recency tracker, and the stats are persisted with
`total_quizzes_sent` increased — the code only guards on
`not self.groups`, i.e. an EMPTY registry. -/
theorem c3_counterexample :
    inactiveOnlyState.groups ≠ [] ∧
    inactiveOnlyState.groups.filter (fun g => g.isActive) = [] ∧
    (sendRandomQuiz inactiveOnlyState 0 (fun _ => true) 50).2 =
      ⟨0, 0⟩ ∧
    (sendRandomQuiz inactiveOnlyState 0 (fun _ => true) 50).1.recent =
      [7] ∧
    inactiveOnlyState.recent = [] ∧
    ((sendRandomQuiz inactiveOnlyState 0
        (fun _ => true) 50).1.quizzes.map (fun q => q.sentCount)) =
      [1] ∧
    (sendRandomQuiz inactiveOnlyState 0
        (fun _ => true) 50).1.stats.totalQuizzesSent = 1 ∧
    inactiveOnlyState.stats.totalQuizzesSent = 0 := by
  decide

/-- C3 (amended): `send_random_quiz` is an immediate, mutation-free
no-op (sentCount = failedCount = 0, state returned unchanged) when the
quiz list is empty, the group list is empty, or no quiz is active; with
zero active but at least one registered (inactive) destination the pass
still records the selected quiz, appends to the tracker and persists
stats (see counterexample).  `/reset confirm` followed immediately by a
broadcast is always such a no-op and cannot raise. -/
theorem c3_noop_cases (st : BotState) (choice now : Nat)
    (ok : Int → Bool) :
    ((st.quizzes = [] ∨ st.groups = [] ∨
        st.quizzes.filter (fun q => q.isActive) = []) →
      sendRandomQuiz st choice ok now = (st, ⟨0, 0⟩)) ∧
    sendRandomQuiz (resetAllQuizzes st) choice ok now =
      (resetAllQuizzes st, ⟨0, 0⟩) :=
  ⟨sendRandomQuiz_noop st choice ok now,
   sendRandomQuiz_noop _ choice ok now (Or.inl rfl)⟩

/-- Witness for C3 amended: empty catalog broadcasts are no-ops. -/
theorem c3_noop_cases_witness :
    sendRandomQuiz
      { quizzes := [], groups := [sampleGroup 1], recent := [],
        stats := sampleStats } 0 (fun _ => true) 50 =
      ({ quizzes := [], groups := [sampleGroup 1], recent := [],
         stats := sampleStats }, ⟨0, 0⟩) :=
  (c3_noop_cases _ 0 50 (fun _ => true)).1 (Or.inl rfl)

/-- C6 counterexample: with one active and one inactive destination
(one attempted send), the persisted stats increase
`total_quizzes_sent` by 2 — `len(self.groups)`, the whole registry,
added BEFORE the loop — not by the 1 destination attempted, and
`total_broadcasts_sent` is not incremented at all. -/
theorem c6_counterexample :
    (mixedGroupState.groups.filter (fun g => g.isActive)).length = 1 ∧
    mixedGroupState.groups.length = 2 ∧
    (sendRandomQuiz mixedGroupState 0 (fun _ => true)
        50).1.stats.totalQuizzesSent = 2 ∧
    mixedGroupState.stats.totalQuizzesSent = 0 ∧
    (sendRandomQuiz mixedGroupState 0 (fun _ => true)
        50).1.stats.totalBroadcastsSent = 0 ∧
    mixedGroupState.stats.totalBroadcastsSent = 0 ∧
    (sendRandomQuiz mixedGroupState 0 (fun _ => true) 50).2.sentCount =
      1 := by
  decide

/-- C6 (amended): whenever a pass selects a quiz, the persisted stats
have `total_quizzes_sent` increased by the TOTAL number of registered
destinations (`len(self.groups)`, active and inactive, added before the
destination loop), `last_quiz_sent` set to the pass time, and
`total_broadcasts_sent` left unchanged — the quiz broadcast pass never
touches the broadcast counter (only the text-broadcast path does). -/
theorem c6_stats_update (st : BotState) (choice now : Nat)
    (ok : Int → Bool)
    (hq : st.quizzes ≠ []) (hg : st.groups ≠ [])
    (hact : st.quizzes.filter (fun q => q.isActive) ≠ []) :
    (sendRandomQuiz st choice ok now).1.stats.totalQuizzesSent =
      st.stats.totalQuizzesSent + st.groups.length ∧
    (sendRandomQuiz st choice ok now).1.stats.lastQuizSent = some now ∧
    (sendRandomQuiz st choice ok now).1.stats.totalBroadcastsSent =
      st.stats.totalBroadcastsSent := by
  rcases hpool : (getRandomQuiz st.quizzes st.recent 8).1 with _ | pool
  · exact absurd ((getRandomQuiz_none_iff _ _ _).mp hpool) hact
  · rw [sendRandomQuiz_spec st choice ok now (by simp [hq, hg]) hpool]
    have hstats := passLoop_stats ok now
      (st.groups.filter (fun g => g.isActive)) st.groups
      { st.stats with
          totalQuizzesSent :=
            st.stats.totalQuizzesSent + st.groups.length,
          lastQuizSent := some now } 0
    exact ⟨hstats.1, hstats.2.2.1, hstats.2.1⟩

/-- Witness for C6 amended at the five-destination state. -/
theorem c6_stats_update_witness :
    (sendRandomQuiz fiveGroupState 0 (fun _ => true)
        50).1.stats.totalQuizzesSent =
      fiveGroupState.stats.totalQuizzesSent +
        fiveGroupState.groups.length :=
  (c6_stats_update fiveGroupState 0 50 (fun _ => true)
    (by decide) (by decide) (by decide)).1

theorem length_filter_not_add (l : List Group) (ok : Int → Bool) :
    (l.filter (fun g => ok g.chatId)).length +
      (l.filter (fun g => !(ok g.chatId))).length = l.length := by
  induction l with
  | nil => rfl
  | cons a l ih =>
    by_cases h : ok a.chatId <;> simp [List.filter_cons, h] <;> omega

/-- C2: a broadcast pass over n active destinations of which k fail the
external send completes for every input (the per-destination
`try/except` is total in the model): each failing destination is marked
Inactive, each succeeding destination keeps its Active flag with
`quizzes_received` incremented (and `last_activity` refreshed), and the
pass reports sentCount = n - k and failedCount = k. -/
theorem c2_failure_isolation (st : BotState) (choice now : Nat)
    (ok : Int → Bool)
    (hq : st.quizzes ≠ []) (hg : st.groups ≠ [])
    (hact : st.quizzes.filter (fun q => q.isActive) ≠ [])
    (hnd : (st.groups.map (fun g => g.chatId)).Nodup) :
    (sendRandomQuiz st choice ok now).2.sentCount =
      (st.groups.filter (fun g => g.isActive)).length -
        ((st.groups.filter (fun g => g.isActive)).filter
          (fun g => !(ok g.chatId))).length ∧
    (sendRandomQuiz st choice ok now).2.failedCount =
      ((st.groups.filter (fun g => g.isActive)).filter
        (fun g => !(ok g.chatId))).length ∧
    ∀ g ∈ st.groups.filter (fun g => g.isActive),
      findGroup (sendRandomQuiz st choice ok now).1.groups g.chatId =
        some (if ok g.chatId
          then { g with quizzesReceived := g.quizzesReceived + 1,
                        lastActivity := now }
          else { g with isActive := false }) := by
  rcases hpool : (getRandomQuiz st.quizzes st.recent 8).1 with _ | pool
  · exact absurd ((getRandomQuiz_none_iff _ _ _).mp hpool) hact
  rw [sendRandomQuiz_spec st choice ok now (by simp [hq, hg]) hpool]
  have hpart := length_filter_not_add
    (st.groups.filter (fun g => g.isActive)) ok
  dsimp only
  refine ⟨?_, ?_, ?_⟩
  · rw [passLoop_sent]
    omega
  · rw [passLoop_sent]
    omega
  · intro g hgA
    rw [passLoop_find_mem ok now _ _ _ _ g hgA
      (nodup_chatIds_filter st.groups hnd _)]
    rw [findGroup_of_nodup st.groups hnd g (List.mem_filter.mp hgA).1]
    by_cases h : ok g.chatId <;>
      simp [h, succUpdate, markInactive]

/-- Witness for C2: five active destinations, sends to chat ids 4 and 5
fail; the pass reports 3 sent / 2 failed, deactivates the failing two
and increments the counter of a succeeding one. -/
theorem c2_failure_isolation_witness :
    (sendRandomQuiz fiveGroupState 0 (fun c => decide (c ≤ 3))
        50).2.sentCount = 3 ∧
    (sendRandomQuiz fiveGroupState 0 (fun c => decide (c ≤ 3))
        50).2.failedCount = 2 ∧
    findGroup (sendRandomQuiz fiveGroupState 0 (fun c => decide (c ≤ 3))
        50).1.groups 4 =
      some { sampleGroup 4 with isActive := false } ∧
    findGroup (sendRandomQuiz fiveGroupState 0 (fun c => decide (c ≤ 3))
        50).1.groups 1 =
      some { sampleGroup 1 with
               quizzesReceived := 1, lastActivity := 50 } := by
  have h := c2_failure_isolation fiveGroupState 0 50
    (fun c => decide (c ≤ 3)) (by decide) (by decide) (by decide)
    (by decide)
  refine ⟨?_, ?_, ?_, ?_⟩
  · rw [h.1]
    decide
  · rw [h.2.1]
    decide
  · exact (h.2.2 (sampleGroup 4) (by decide)).trans (by decide)
  · exact (h.2.2 (sampleGroup 1) (by decide)).trans (by decide)

/-- A concrete two-step sequence of broadcast selections from the
11-quiz catalog: quiz 0 then quiz 1. -/
theorem elevenTrace : BroadcastTrace elevenCatalog [] [0, 1] := by
  refine BroadcastTrace.step elevenCatalog []
    ((getRandomQuiz elevenCatalog [] 8).1.getD []) (sampleQuiz 0 none)
    100 [1] (by decide) (by decide) ?_
  exact BroadcastTrace.step elevenCatalog1 elevenRecent1
    ((getRandomQuiz elevenCatalog1 elevenRecent1 8).1.getD [])
    (sampleQuiz 1 none) 200 [] (by decide) (by decide)
    (BroadcastTrace.nil _ _)

/-- C1: starting from a catalog with at least 11 active quizzes with
distinct ids (Mongo `_id`s are unique) and a recency tracker within its
capacity of 10, no quiz id is selected twice within any window of 10
consecutive `send_random_quiz` selections: selections less than 10
apart always differ. -/
theorem c1_no_repeat_in_window (qs : List Quiz) (r sel : List Nat)
    (ht : BroadcastTrace qs r sel)
    (hnd : (activeIds qs).Nodup) (hlen : 11 ≤ (activeIds qs).length)
    (hr : r.length ≤ maxRecentTrack)
    (i j : Nat) (hij : i < j) (hj : j < sel.length) (hw : j - i < 10) :
    sel.get ⟨i, Nat.lt_trans hij hj⟩ ≠ sel.get ⟨j, hj⟩ := by
  intro hcon
  have hjt : (sel.take j).length = j := by
    rw [List.length_take]
    omega
  have hkl : r.length + i < (r ++ sel.take j).length := by
    rw [List.length_append, hjt]
    omega
  have hget : (r ++ sel.take j).get ⟨r.length + i, hkl⟩ =
      sel.get ⟨i, Nat.lt_trans hij hj⟩ := by
    simp only [List.get_eq_getElem]
    rw [List.getElem_append_right (by omega)]
    simp only [Nat.add_sub_cancel_left]
    simp [List.getElem_take]
  have h10 : maxRecentTrack = 10 := rfl
  have hmem : sel.get ⟨i, Nat.lt_trans hij hj⟩ ∈
      lastN maxRecentTrack (r ++ sel.take j) := by
    rw [← hget]
    exact mem_lastN hkl (by rw [List.length_append, hjt]; omega)
  exact (broadcast_sel_fresh ht hnd hlen hr j hj _ hmem) hcon.symm

/-- Witness for C1: along the concrete two-selection trace the two
selected ids differ. -/
theorem c1_no_repeat_in_window_witness :
    ([0, 1] : List Nat).get ⟨0, by decide⟩ ≠
      ([0, 1] : List Nat).get ⟨1, by decide⟩ :=
  c1_no_repeat_in_window elevenCatalog [] [0, 1] elevenTrace
    (by decide) (by decide) (by decide) 0 1 (by decide) (by decide)
    (by decide)

end Claims

end QuizBot
